import Mathlib

/-!
Shallow embedding of the bounded numeric field binding of
`react-hooks-forms` (the `Parent` component of `src/README.md`, lines
286-305, together with `src/src/components/NumberForm.js`).

The JavaScript core is:

  const [number, setNumber] = useState(0);
  const [isInvalidNumber, setIsInvalidNumber] = useState(null);
  function handleNumberChange(event) {
    const newNumber = parseInt(event.target.value);
    if (newNumber >= 0 && newNumber <= 5) {
      setNumber(newNumber);
      setIsInvalidNumber(null);
    } else {
      setIsInvalidNumber(`${newNumber} is not a valid number!`)
    }
  }

JavaScript numbers are abstracted by mathematical integers (`Int`), and
the JavaScript `NaN` produced by a failed `parseInt` is `Option.none`;
`NaN >= 0` is false in JavaScript, so the `none` case falls into the
rejection branch, and the template literal prints `NaN` there.
-/

namespace ControlledForm

/-- Value of a decimal digit character, `none` for every other character
(the per-character step of `parseInt` in base 10). -/
def decDigitVal (c : Char) : Option Nat :=
  if '0' ≤ c ∧ c ≤ '9' then some (c.toNat - '0'.toNat) else none

/-- Value of a hexadecimal digit character, `none` for every other
character (the per-character step of `parseInt` in base 16). -/
def hexDigitVal (c : Char) : Option Nat :=
  if '0' ≤ c ∧ c ≤ '9' then some (c.toNat - '0'.toNat)
  else if 'a' ≤ c ∧ c ≤ 'f' then some (c.toNat - 'a'.toNat + 10)
  else if 'A' ≤ c ∧ c ≤ 'F' then some (c.toNat - 'A'.toNat + 10)
  else none

/-- Accumulate the longest run of valid digits from the front of the
list, stopping at the first non-digit, as `parseInt` does. -/
def parseDigitsAcc (base : Nat) (digVal : Char → Option Nat) :
    Nat → List Char → Nat
  | acc, [] => acc
  | acc, c :: rest =>
    match digVal c with
    | some d => parseDigitsAcc base digVal (acc * base + d) rest
    | none => acc

/-- Parse a digit run: `none` (JavaScript `NaN`) when the first
character is not a valid digit, otherwise the value of the longest
valid-digit run. -/
def parseDigits (base : Nat) (digVal : Char → Option Nat) :
    List Char → Option Nat
  | [] => none
  | c :: rest =>
    match digVal c with
    | some d => some (parseDigitsAcc base digVal d rest)
    | none => none

/-- The whitespace characters `parseInt` skips before the number: ASCII
whitespace, NBSP, the Zs spaces (U+1680, U+2000..U+200A, U+202F, U+205F,
U+3000), the line and paragraph separators, and ZWNBSP. -/
def isJsSpace (c : Char) : Bool :=
  c = ' ' ∨ c = '\t' ∨ c = '\n' ∨ c = '\r' ∨
    c = Char.ofNat 11 ∨ c = Char.ofNat 12 ∨
    c = Char.ofNat 0x00A0 ∨ c = Char.ofNat 0x1680 ∨
    (Char.ofNat 0x2000 ≤ c ∧ c ≤ Char.ofNat 0x200A) ∨
    c = Char.ofNat 0x2028 ∨ c = Char.ofNat 0x2029 ∨
    c = Char.ofNat 0x202F ∨ c = Char.ofNat 0x205F ∨
    c = Char.ofNat 0x3000 ∨ c = Char.ofNat 0xFEFF

/-- After sign handling, `parseInt` with no radix argument detects a
`0x`/`0X` lead-in and switches to base 16, otherwise parses base 10. -/
def parseIntBody : List Char → Option Nat
  | c0 :: c1 :: rest =>
    if c0 = '0' ∧ (c1 = 'x' ∨ c1 = 'X') then parseDigits 16 hexDigitVal rest
    else parseDigits 10 decDigitVal (c0 :: c1 :: rest)
  | l => parseDigits 10 decDigitVal l

/-- Optional sign handling of `parseInt`, applied after whitespace. -/
def parseIntSigned : List Char → Option Int
  | c :: rest =>
    if c = '-' then (parseIntBody rest).map (fun m => -(Int.ofNat m))
    else if c = '+' then (parseIntBody rest).map (fun m => Int.ofNat m)
    else (parseIntBody (c :: rest)).map (fun m => Int.ofNat m)
  | [] => none

/-- `parseInt` on a character list: skip whitespace, read an optional
sign, then the digit run; `none` is JavaScript `NaN`. -/
def parseIntChars (l : List Char) : Option Int :=
  parseIntSigned (l.dropWhile isJsSpace)

/-- The JavaScript `parseInt(string)` call of `handleNumberChange`,
with JavaScript numbers abstracted by `Int` and `NaN` by `none`. -/
def parseInt (s : String) : Option Int := parseIntChars s.data

/-- Character of a single decimal digit. -/
def digitChar (d : Nat) : Char := Char.ofNat (48 + d)

/-- Decimal digit characters of `n`, most significant first; fuel-based
so that it is structurally recursive (call it with `fuel = n`). -/
def natToCharsFuel : Nat → Nat → List Char
  | 0, _ => []
  | fuel + 1, n =>
    if n = 0 then [] else natToCharsFuel fuel (n / 10) ++ [digitChar (n % 10)]

/-- Decimal digit characters of a natural number. -/
def natToChars (n : Nat) : List Char :=
  if n = 0 then [ '0' ] else natToCharsFuel n n

/-- The decimal string of an integer, the way JavaScript renders an
integral number in a template literal. -/
def decimalString (n : Int) : String :=
  if n < 0 then String.mk ( '-' :: natToChars n.natAbs)
  else String.mk (natToChars n.toNat)

/-- The template-literal rendering `${newNumber}` of the parse result:
`NaN` prints as `"NaN"`, an integral number as its decimal string. -/
def jsNumberToString : Option Int → String
  | some n => decimalString n
  | none => "NaN"

/-- The rejection message `` `${newNumber} is not a valid number!` ``. -/
def validationText (v : Option Int) : String :=
  jsNumberToString v ++ " is not a valid number!"

/-- The two state cells of `Parent`: `number` and `isInvalidNumber`
(the spec's NumericValue and ValidationMessage). -/
structure ParentState where
  number : Int
  isInvalidNumber : Option String
deriving DecidableEq, Repr

/-- `useState(0)` and `useState(null)`: NumericValue 0, message absent. -/
def initialState : ParentState :=
  { number := 0, isInvalidNumber := none }

/-- The observable outcome of one update attempt. -/
inductive Outcome where
  | accepted : Int → Outcome
  | rejected : String → Outcome
deriving DecidableEq, Repr

/-- Whether the outcome committed a value. -/
def Outcome.isAccepted : Outcome → Bool
  | accepted _ => true
  | rejected _ => false

/-- Whether the outcome was a rejection. -/
def Outcome.isRejected : Outcome → Bool
  | accepted _ => false
  | rejected _ => true

/-- `handleNumberChange`, with its outcome made explicit: parse the raw
text, and either commit the number and clear the message, or keep the
number and set the message.  In JavaScript `NaN >= 0` is false, so a
failed parse takes the rejection branch with `${NaN}` printed `NaN`. -/
def attemptUpdate (s : ParentState) (rawText : String) :
    ParentState × Outcome :=
  match parseInt rawText with
  | some n =>
    if 0 ≤ n ∧ n ≤ 5 then
      ({ number := n, isInvalidNumber := none }, Outcome.accepted n)
    else
      ({ s with isInvalidNumber := some (validationText (some n)) },
        Outcome.rejected (validationText (some n)))
  | none =>
    ({ s with isInvalidNumber := some (validationText none) },
      Outcome.rejected (validationText none))

/-- The state transition of `handleNumberChange` alone. -/
def handleNumberChange (s : ParentState) (rawText : String) : ParentState :=
  (attemptUpdate s rawText).1

/-! ### Double-precision refinement

`attemptUpdate` above abstracts JavaScript numbers by exact integers.
That abstraction is exact only up to magnitude 2^53: `parseInt` returns
an IEEE-754 double, so larger digit strings are rounded to 53
significant bits (for example "9007199254740993", naming 2^53 + 1,
parses to 9007199254740992).  The refinement below keeps that rounding.
Its message rendering keeps `decimalString`, which agrees with the
template literal for every magnitude below 10^21 (above that JavaScript
switches to exponential form; every statement proved about the
refinement stays far below 10^21). -/

/-- Number of binary digits of `n`, fuel-based so that it is
structurally recursive (call it with `fuel = n`). -/
def natBitsFuel : Nat → Nat → Nat
  | 0, _ => 0
  | fuel + 1, n => if n = 0 then 0 else natBitsFuel fuel (n / 2) + 1

/-- Number of binary digits of a natural number. -/
def bitLen (n : Nat) : Nat := natBitsFuel n n

/-- Round a magnitude to the nearest IEEE-754 double, half to even:
exact up to 2^53, rounded to 53 significant bits beyond. -/
def roundToDouble (v : Nat) : Nat :=
  if v ≤ 2 ^ 53 then v
  else
    let k := bitLen v - 53
    let q := v / 2 ^ k
    let r := v % 2 ^ k
    let half := 2 ^ (k - 1)
    if r < half then q * 2 ^ k
    else if half < r then (q + 1) * 2 ^ k
    else if q % 2 = 0 then q * 2 ^ k else (q + 1) * 2 ^ k

/-- Double rounding of a signed parse result. -/
def roundIntToDouble (n : Int) : Int :=
  if n < 0 then -(Int.ofNat (roundToDouble n.natAbs))
  else Int.ofNat (roundToDouble n.natAbs)

/-- `parseInt` with the double-precision rounding JavaScript applies to
the exact integer named by the digit string. -/
def parseIntD (s : String) : Option Int :=
  (parseInt s).map roundIntToDouble

/-- `handleNumberChange` with its outcome, over the double-precision
parse `parseIntD`. -/
def attemptUpdateD (s : ParentState) (rawText : String) :
    ParentState × Outcome :=
  match parseIntD rawText with
  | some n =>
    if 0 ≤ n ∧ n ≤ 5 then
      ({ number := n, isInvalidNumber := none }, Outcome.accepted n)
    else
      ({ s with isInvalidNumber := some (validationText (some n)) },
        Outcome.rejected (validationText (some n)))
  | none =>
    ({ s with isInvalidNumber := some (validationText none) },
      Outcome.rejected (validationText none))

/-- Whether `pat` occurs as a contiguous run inside the second list. -/
def hasSublist (pat : List Char) : List Char → Bool
  | [] => pat.isEmpty
  | c :: rest => pat.isPrefixOf (c :: rest) || hasSublist pat rest

/-! ### Round-trip facts: parsing the decimal string of `n` gives `n` -/

theorem digitChar_facts : ∀ d, d < 10 →
    decDigitVal (digitChar d) = some d ∧ isJsSpace (digitChar d) = false ∧
    digitChar d ≠ '-' ∧ digitChar d ≠ '+' ∧
    digitChar d ≠ 'x' ∧ digitChar d ≠ 'X' := by decide

theorem natToCharsFuel_digits : ∀ fuel n : Nat, ∀ c ∈ natToCharsFuel fuel n,
    ∃ d, d < 10 ∧ c = digitChar d := by
  intro fuel
  induction fuel with
  | zero => intro n c hc; simp [natToCharsFuel] at hc
  | succ fuel ih =>
    intro n c hc
    by_cases hn : n = 0
    · simp [natToCharsFuel, hn] at hc
    · rw [natToCharsFuel, if_neg hn] at hc
      rcases List.mem_append.mp hc with h1 | h2
      · exact ih _ c h1
      · refine ⟨n % 10, Nat.mod_lt _ (by omega), ?_⟩
        simpa using h2

theorem parseDigitsAcc_append (l₁ l₂ : List Char) (acc : Nat)
    (h : ∀ c ∈ l₁, (decDigitVal c).isSome = true) :
    parseDigitsAcc 10 decDigitVal acc (l₁ ++ l₂) =
      parseDigitsAcc 10 decDigitVal (parseDigitsAcc 10 decDigitVal acc l₁) l₂ := by
  induction l₁ generalizing acc with
  | nil => simp [parseDigitsAcc]
  | cons c rest ih =>
    obtain ⟨d, hd⟩ := Option.isSome_iff_exists.mp (h c (by simp))
    simp only [List.cons_append, parseDigitsAcc, hd]
    exact ih _ (fun x hx => h x (by simp [hx]))

theorem parseDigitsAcc_stop (t : List Char) (acc : Nat)
    (h : ∀ c, t.head? = some c → decDigitVal c = none) :
    parseDigitsAcc 10 decDigitVal acc t = acc := by
  cases t with
  | nil => rfl
  | cons c rest => simp [parseDigitsAcc, h c rfl]

theorem parse_natToCharsFuel : ∀ fuel n acc : Nat, n ≤ fuel →
    parseDigitsAcc 10 decDigitVal acc (natToCharsFuel fuel n) =
      acc * 10 ^ (natToCharsFuel fuel n).length + n := by
  intro fuel
  induction fuel with
  | zero =>
    intro n acc h
    interval_cases n
    simp [natToCharsFuel, parseDigitsAcc]
  | succ fuel ih =>
    intro n acc h
    by_cases hn : n = 0
    · simp [natToCharsFuel, hn, parseDigitsAcc]
    · rw [natToCharsFuel, if_neg hn]
      have hdig : ∀ c ∈ natToCharsFuel fuel (n / 10), (decDigitVal c).isSome = true := by
        intro c hc
        obtain ⟨d, hd10, rfl⟩ := natToCharsFuel_digits fuel (n / 10) c hc
        rw [(digitChar_facts d hd10).1]; rfl
      rw [parseDigitsAcc_append _ _ _ hdig, ih (n / 10) acc (by omega)]
      have hmod : decDigitVal (digitChar (n % 10)) = some (n % 10) :=
        (digitChar_facts (n % 10) (Nat.mod_lt _ (by omega))).1
      simp only [parseDigitsAcc, hmod, List.length_append, List.length_singleton]
      have := Nat.div_add_mod n 10
      ring_nf
      omega

theorem natToChars_digits (n : Nat) :
    ∀ c ∈ natToChars n, ∃ d, d < 10 ∧ c = digitChar d := by
  by_cases hn : n = 0
  · intro c hc
    rw [natToChars, if_pos hn] at hc
    simp at hc
    exact ⟨0, by omega, by rw [hc]; decide⟩
  · rw [natToChars, if_neg hn]
    exact natToCharsFuel_digits n n

theorem natToChars_ne_nil (n : Nat) : natToChars n ≠ [] := by
  by_cases hn : n = 0
  · rw [natToChars, if_pos hn]; simp
  · rw [natToChars, if_neg hn]
    cases n with
    | zero => exact absurd rfl hn
    | succ m => rw [natToCharsFuel, if_neg hn]; simp

theorem parseDigitsAcc_natToChars (n : Nat) :
    parseDigitsAcc 10 decDigitVal 0 (natToChars n) = n := by
  by_cases hn : n = 0
  · rw [natToChars, if_pos hn, hn]; rfl
  · rw [natToChars, if_neg hn, parse_natToCharsFuel n n 0 le_rfl]; simp

theorem parseDigits_append (l t : List Char) (hne : l ≠ [])
    (hdig : ∀ c ∈ l, (decDigitVal c).isSome = true)
    (ht : ∀ c, t.head? = some c → decDigitVal c = none) :
    parseDigits 10 decDigitVal (l ++ t) =
      some (parseDigitsAcc 10 decDigitVal 0 l) := by
  cases l with
  | nil => exact absurd rfl hne
  | cons c rest =>
    obtain ⟨d, hd⟩ := Option.isSome_iff_exists.mp (hdig c (by simp))
    simp only [List.cons_append, parseDigits, hd]
    rw [parseDigitsAcc_append rest t d (fun x hx => hdig x (by simp [hx]))]
    rw [parseDigitsAcc_stop t _ ht]
    simp [parseDigitsAcc, hd]

theorem parseIntBody_natToChars (m : Nat) (t : List Char)
    (ht : ∀ c, t.head? = some c → decDigitVal c = none ∧ c ≠ 'x' ∧ c ≠ 'X') :
    parseIntBody (natToChars m ++ t) = some m := by
  have hdig : ∀ c ∈ natToChars m, (decDigitVal c).isSome = true := by
    intro c hc
    obtain ⟨d, hd10, rfl⟩ := natToChars_digits m c hc
    rw [(digitChar_facts d hd10).1]; rfl
  have hparse := parseDigits_append (natToChars m) t (natToChars_ne_nil m) hdig
    (fun c h => (ht c h).1)
  have hbody : parseIntBody (natToChars m ++ t) =
      parseDigits 10 decDigitVal (natToChars m ++ t) := by
    rcases hl : natToChars m ++ t with _ | ⟨c0, _ | ⟨c1, rest1⟩⟩
    · simp [parseIntBody]
    · simp [parseIntBody]
    · have hmem : c1 ∈ natToChars m ∨ t.head? = some c1 := by
        rcases hne : natToChars m with _ | ⟨a, as⟩
        · exact absurd hne (natToChars_ne_nil m)
        · rcases as with _ | ⟨b, bs⟩
          · rw [hne] at hl
            simp at hl
            right
            rw [hl.2]
            rfl
          · rw [hne] at hl
            simp at hl
            left
            rw [← hl.2.1]
            simp
      have hx : c1 ≠ 'x' ∧ c1 ≠ 'X' := by
        rcases hmem with hmem | hmem
        · obtain ⟨d, hd10, rfl⟩ := natToChars_digits m c1 hmem
          exact ⟨(digitChar_facts d hd10).2.2.2.2.1,
            (digitChar_facts d hd10).2.2.2.2.2⟩
        · exact ⟨(ht c1 hmem).2.1, (ht c1 hmem).2.2⟩
      rw [parseIntBody, if_neg (by tauto)]
  rw [hbody, hparse, parseDigitsAcc_natToChars]

theorem parseIntChars_decimal_append (n : Int) (t : List Char)
    (ht : ∀ c, t.head? = some c → decDigitVal c = none ∧ c ≠ 'x' ∧ c ≠ 'X') :
    parseIntChars ((decimalString n).data ++ t) = some n := by
  by_cases hn : n < 0
  · rw [decimalString, if_pos hn]
    show parseIntChars (( '-' :: natToChars n.natAbs) ++ t) = some n
    have hdrop : List.dropWhile isJsSpace
        (( '-' :: natToChars n.natAbs) ++ t) =
        '-' :: (natToChars n.natAbs ++ t) := by
      rw [List.cons_append, List.dropWhile_cons, if_neg (by decide)]
    rw [parseIntChars, hdrop, parseIntSigned, if_pos rfl,
      parseIntBody_natToChars n.natAbs t ht]
    simp only [Option.map_some']
    congr 1
    simp only [Int.ofNat_eq_coe]
    omega
  · push_neg at hn
    rw [decimalString, if_neg (not_lt.mpr hn)]
    show parseIntChars (natToChars n.toNat ++ t) = some n
    rcases ha : natToChars n.toNat with _ | ⟨a, as⟩
    · exact absurd ha (natToChars_ne_nil _)
    · obtain ⟨d, hd10, hda⟩ := natToChars_digits n.toNat a (by rw [ha]; simp)
      have hfacts := digitChar_facts d hd10
      have hdrop : List.dropWhile isJsSpace ((a :: as) ++ t) =
          a :: (as ++ t) := by
        rw [List.cons_append, List.dropWhile_cons, if_neg (by rw [hda]; simp [hfacts.2.1])]
      rw [parseIntChars, hdrop, parseIntSigned,
        if_neg (by rw [hda]; exact hfacts.2.2.1),
        if_neg (by rw [hda]; exact hfacts.2.2.2.1)]
      rw [show a :: (as ++ t) = (a :: as) ++ t from rfl, ← ha,
        parseIntBody_natToChars n.toNat t ht]
      simp only [Option.map_some']
      congr 1
      simp only [Int.ofNat_eq_coe]
      omega

theorem parseInt_decimalString (n : Int) : parseInt (decimalString n) = some n := by
  have h := parseIntChars_decimal_append n []
    (by intro c hc; simp at hc)
  rw [List.append_nil] at h
  exact h

/-! ### Branch lemmas for `attemptUpdate` -/

theorem attemptUpdate_in_range (s : ParentState) (raw : String) (n : Int)
    (hp : parseInt raw = some n) (h0 : 0 ≤ n) (h5 : n ≤ 5) :
    attemptUpdate s raw =
      ({ number := n, isInvalidNumber := none }, Outcome.accepted n) := by
  simp only [attemptUpdate, hp]
  rw [if_pos ⟨h0, h5⟩]

theorem attemptUpdate_out_of_range (s : ParentState) (raw : String) (n : Int)
    (hp : parseInt raw = some n) (h : ¬(0 ≤ n ∧ n ≤ 5)) :
    attemptUpdate s raw =
      ({ s with isInvalidNumber := some (validationText (some n)) },
        Outcome.rejected (validationText (some n))) := by
  simp only [attemptUpdate, hp]
  rw [if_neg h]

theorem attemptUpdate_nan (s : ParentState) (raw : String)
    (hp : parseInt raw = none) :
    attemptUpdate s raw =
      ({ s with isInvalidNumber := some (validationText none) },
        Outcome.rejected (validationText none)) := by
  simp only [attemptUpdate, hp]

theorem validationText_ne_empty (v : Option Int) : validationText v ≠ "" := by
  intro h
  have hlen := congrArg String.length h
  rw [validationText, String.length_append] at hlen
  have h23 : (" is not a valid number!" : String).length = 23 := rfl
  have h0 : ("" : String).length = 0 := rfl
  omega

theorem validationText_contains (n : Int) :
    ∃ l r : List Char,
      (validationText (some n)).data = l ++ (decimalString n).data ++ r := by
  refine ⟨[], (" is not a valid number!" : String).data, ?_⟩
  rw [validationText]
  simp [jsNumberToString, String.data_append]

/-! ### Lemmas for the double-precision refinement -/

theorem roundToDouble_small (v : Nat) (h : v ≤ 2 ^ 53) :
    roundToDouble v = v := by
  rw [roundToDouble, if_pos h]

theorem roundIntToDouble_small (n : Int) (h : n.natAbs ≤ 2 ^ 53) :
    roundIntToDouble n = n := by
  rw [roundIntToDouble]
  by_cases hn : n < 0
  · rw [if_pos hn, roundToDouble_small _ h]
    simp only [Int.ofNat_eq_coe]
    omega
  · rw [if_neg hn, roundToDouble_small _ h]
    simp only [Int.ofNat_eq_coe]
    omega

theorem parseIntD_decimalString (n : Int) (h : n.natAbs ≤ 2 ^ 53) :
    parseIntD (decimalString n) = some n := by
  rw [parseIntD, parseInt_decimalString]
  simp only [Option.map_some', roundIntToDouble_small n h]

theorem attemptUpdateD_out_of_range (s : ParentState) (raw : String) (n : Int)
    (hp : parseIntD raw = some n) (h : ¬(0 ≤ n ∧ n ≤ 5)) :
    attemptUpdateD s raw =
      ({ s with isInvalidNumber := some (validationText (some n)) },
        Outcome.rejected (validationText (some n))) := by
  simp only [attemptUpdateD, hp]
  rw [if_neg h]

theorem isPrefixOf_append_self (pat r : List Char) :
    pat.isPrefixOf (pat ++ r) = true := by
  induction pat with
  | nil => simp [List.isPrefixOf]
  | cons a as ih => simp [List.isPrefixOf, ih]

theorem hasSublist_append (pat l r : List Char) :
    hasSublist pat (l ++ pat ++ r) = true := by
  induction l with
  | nil =>
    rw [List.nil_append]
    rcases h : pat ++ r with _ | ⟨c, rest⟩
    · have hp : pat = [] := (List.append_eq_nil.mp h).1
      simp [hp, hasSublist]
    · rw [hasSublist, ← h, isPrefixOf_append_self]
      simp
  | cons c l' ih =>
    rw [List.cons_append, List.cons_append, hasSublist, ih]
    simp

theorem not_contains_of_hasSublist_false (pat big : List Char)
    (h : hasSublist pat big = false) :
    ¬ ∃ l r : List Char, big = l ++ pat ++ r := by
  rintro ⟨l, r, rfl⟩
  rw [hasSublist_append] at h
  exact Bool.noConfusion h

/-! ### The claims -/

/-- C1: for every integer n with 0 ≤ n ≤ 5, calling `attemptUpdate` on the
decimal string of n from any state commits NumericValue = n, clears the
validation message, and yields the `accepted n` outcome. -/
theorem claim1_in_range_commits (n : Int) (s : ParentState)
    (h0 : 0 ≤ n) (h5 : n ≤ 5) :
    attemptUpdate s (decimalString n) =
      ({ number := n, isInvalidNumber := none }, Outcome.accepted n) :=
  attemptUpdate_in_range s (decimalString n) n (parseInt_decimalString n) h0 h5

/-- Witness for C1 at n = 3 from a non-initial state. -/
theorem claim1_in_range_commits_witness :
    (0 : Int) ≤ 3 ∧ (3 : Int) ≤ 5 ∧
      attemptUpdate { number := 1, isInvalidNumber := some "old" }
          (decimalString 3) =
        ({ number := 3, isInvalidNumber := none }, Outcome.accepted 3) :=
  ⟨by decide, by decide,
    claim1_in_range_commits 3 { number := 1, isInvalidNumber := some "old" }
      (by decide) (by decide)⟩

/-- C2 counterexample: at n = 2^53 + 1 = 9007199254740993, JavaScript's
double-precision `parseInt` rounds the digit string to 9007199254740992,
so the rejection message does not contain the textual representation of
n — the original claim fails on the code at this input. -/
theorem claim2_counterexample :
    ((9007199254740993 : Int) < 0 ∨ 5 < (9007199254740993 : Int)) ∧
    parseIntD (decimalString 9007199254740993) = some 9007199254740992 ∧
    (attemptUpdateD initialState
        (decimalString 9007199254740993)).1.isInvalidNumber =
      some "9007199254740992 is not a valid number!" ∧
    ¬ ∃ l r : List Char,
        ("9007199254740992 is not a valid number!" : String).data =
          l ++ (decimalString 9007199254740993).data ++ r := by
  refine ⟨by decide, by decide, by decide, ?_⟩
  exact not_contains_of_hasSublist_false _ _ (by decide)

/-- C2 (amended): for every integer n outside [0, 5] with |n| ≤ 2^53 —
the range on which JavaScript parses and renders decimal digit strings
exactly — the update on the decimal string of n from any state is
rejected, leaves NumericValue unchanged, and sets the message to a
non-empty string containing n's decimal text.  Beyond 2^53 the original
claim fails; see the counterexample at 2^53 + 1. -/
theorem claim2_amended_out_of_range_rejects (n : Int) (s : ParentState)
    (h : n < 0 ∨ 5 < n) (hsz : n.natAbs ≤ 2 ^ 53) :
    ∃ m : String,
      (attemptUpdateD s (decimalString n)).2 = Outcome.rejected m ∧
      (attemptUpdateD s (decimalString n)).1.number = s.number ∧
      (attemptUpdateD s (decimalString n)).1.isInvalidNumber = some m ∧
      m ≠ "" ∧
      ∃ l r : List Char, m.data = l ++ (decimalString n).data ++ r := by
  have hup := attemptUpdateD_out_of_range s (decimalString n) n
    (parseIntD_decimalString n hsz) (by omega)
  refine ⟨validationText (some n), ?_, ?_, ?_, validationText_ne_empty _,
    validationText_contains n⟩
  · rw [hup]
  · rw [hup]
  · rw [hup]

/-- Witness for the amended C2 at n = 9 from the initial state. -/
theorem claim2_amended_witness :
    ((9 : Int) < 0 ∨ 5 < (9 : Int)) ∧ (9 : Int).natAbs ≤ 2 ^ 53 ∧
      ∃ m : String,
        (attemptUpdateD initialState (decimalString 9)).2 =
          Outcome.rejected m ∧
        (attemptUpdateD initialState (decimalString 9)).1.number =
          initialState.number ∧
        (attemptUpdateD initialState (decimalString 9)).1.isInvalidNumber =
          some m ∧
        m ≠ "" ∧
        ∃ l r : List Char, m.data = l ++ (decimalString 9).data ++ r :=
  ⟨by decide, by decide,
    claim2_amended_out_of_range_rejects 9 initialState (by decide) (by decide)⟩

/-- C3: NumericValue is 0 at initialization and every `attemptUpdate` call
preserves 0 ≤ NumericValue ≤ 5. -/
theorem claim3_number_invariant :
    initialState.number = 0 ∧
      ∀ (s : ParentState) (raw : String), 0 ≤ s.number → s.number ≤ 5 →
        0 ≤ (handleNumberChange s raw).number ∧
          (handleNumberChange s raw).number ≤ 5 := by
  refine ⟨rfl, ?_⟩
  intro s raw h0 h5
  rw [handleNumberChange]
  rcases hp : parseInt raw with _ | n
  · rw [attemptUpdate_nan s raw hp]
    exact ⟨h0, h5⟩
  · by_cases hr : 0 ≤ n ∧ n ≤ 5
    · rw [attemptUpdate_in_range s raw n hp hr.1 hr.2]
      exact hr
    · rw [attemptUpdate_out_of_range s raw n hp hr]
      exact ⟨h0, h5⟩

/-- Witness for C3 at the initial state and raw text "9". -/
theorem claim3_number_invariant_witness :
    (0 : Int) ≤ initialState.number ∧ initialState.number ≤ 5 ∧
      0 ≤ (handleNumberChange initialState "9").number ∧
        (handleNumberChange initialState "9").number ≤ 5 :=
  ⟨by decide, by decide,
    (claim3_number_invariant.2 initialState "9" (by decide) (by decide)).1,
    (claim3_number_invariant.2 initialState "9" (by decide) (by decide)).2⟩

/-- C4: a single call never sets both cells from one event: acceptance
clears the message, rejection keeps NumericValue and sets the message, and
the message is present afterwards exactly when the attempt was rejected. -/
theorem claim4_cells_coupling (s : ParentState) (raw : String) :
    ((attemptUpdate s raw).2.isAccepted = true →
      (attemptUpdate s raw).1.isInvalidNumber = none) ∧
    ((attemptUpdate s raw).2.isRejected = true →
      (attemptUpdate s raw).1.number = s.number ∧
        (attemptUpdate s raw).1.isInvalidNumber ≠ none) ∧
    ((attemptUpdate s raw).1.isInvalidNumber.isSome = true ↔
      (attemptUpdate s raw).2.isRejected = true) := by
  rcases hp : parseInt raw with _ | n
  · rw [attemptUpdate_nan s raw hp]
    simp [Outcome.isAccepted, Outcome.isRejected]
  · by_cases hr : 0 ≤ n ∧ n ≤ 5
    · rw [attemptUpdate_in_range s raw n hp hr.1 hr.2]
      simp [Outcome.isAccepted, Outcome.isRejected]
    · rw [attemptUpdate_out_of_range s raw n hp hr]
      simp [Outcome.isAccepted, Outcome.isRejected]

/-- Witness for C4 on the rejected input "9". -/
theorem claim4_cells_coupling_witness :
    (attemptUpdate initialState "9").2.isRejected = true ∧
      (attemptUpdate initialState "9").1.number = initialState.number ∧
        (attemptUpdate initialState "9").1.isInvalidNumber ≠ none :=
  ⟨by decide, (claim4_cells_coupling initialState "9").2.1 (by decide)⟩

/-- C5: parsing is leading-integer best-effort: any raw text whose parse
result is an in-range n is accepted with NumericValue = n; trailing
non-numeric characters are ignored, so the decimal text of n followed by a
non-digit tail still parses to n, and "3abc" and "3.9" commit 3; text with
no parseable leading integer gives the not-a-number result. -/
theorem claim5_leading_integer :
    (∀ (s : ParentState) (raw : String) (n : Int),
        parseInt raw = some n → 0 ≤ n → n ≤ 5 →
        attemptUpdate s raw =
          ({ number := n, isInvalidNumber := none }, Outcome.accepted n)) ∧
    (∀ (n : Int) (t : List Char),
        (∀ c, t.head? = some c → decDigitVal c = none ∧ c ≠ 'x' ∧ c ≠ 'X') →
        parseIntChars ((decimalString n).data ++ t) = some n) ∧
    parseInt "3abc" = some 3 ∧
    parseInt "3.9" = some 3 ∧
    (∀ s : ParentState, attemptUpdate s "3abc" =
      ({ number := 3, isInvalidNumber := none }, Outcome.accepted 3)) ∧
    (∀ s : ParentState, attemptUpdate s "3.9" =
      ({ number := 3, isInvalidNumber := none }, Outcome.accepted 3)) ∧
    parseInt "abc" = none ∧
    (∀ (s : ParentState) (raw : String), parseInt raw = none →
        (attemptUpdate s raw).2 = Outcome.rejected (validationText none)) := by
  refine ⟨attemptUpdate_in_range, parseIntChars_decimal_append,
    by decide, by decide, ?_, ?_, by decide, ?_⟩
  · intro s
    exact attemptUpdate_in_range s "3abc" 3 (by decide) (by decide) (by decide)
  · intro s
    exact attemptUpdate_in_range s "3.9" 3 (by decide) (by decide) (by decide)
  · intro s raw hp
    rw [attemptUpdate_nan s raw hp]

/-- Witness for C5 on the input "3abc". -/
theorem claim5_leading_integer_witness :
    parseInt "3abc" = some 3 ∧ (0 : Int) ≤ 3 ∧ (3 : Int) ≤ 5 ∧
      attemptUpdate initialState "3abc" =
        ({ number := 3, isInvalidNumber := none }, Outcome.accepted 3) :=
  ⟨by decide, by decide, by decide,
    claim5_leading_integer.1 initialState "3abc" 3
      (by decide) (by decide) (by decide)⟩

/-- C6: unparseable input is handled by the same branch as out-of-range
input: it is rejected, NumericValue is unchanged, the message is set, and
every rejection — parse failure or out of range — has the one shared
shape built from the parsed value. -/
theorem claim6_same_branch :
    (∀ (s : ParentState) (raw : String), parseInt raw = none →
        (attemptUpdate s raw).1.number = s.number ∧
        (attemptUpdate s raw).1.isInvalidNumber = some (validationText none) ∧
        (attemptUpdate s raw).2 = Outcome.rejected (validationText none)) ∧
    parseInt "abc" = none ∧
    (∀ (s : ParentState) (raw m : String),
        (attemptUpdate s raw).2 = Outcome.rejected m →
        m = validationText (parseInt raw) ∧
        (attemptUpdate s raw).1 = { s with isInvalidNumber := some m }) := by
  refine ⟨?_, by decide, ?_⟩
  · intro s raw hp
    rw [attemptUpdate_nan s raw hp]
    exact ⟨rfl, rfl, rfl⟩
  · intro s raw m hm
    rcases hp : parseInt raw with _ | n
    · rw [attemptUpdate_nan s raw hp] at hm
      simp at hm
      subst hm
      rw [attemptUpdate_nan s raw hp]
      exact ⟨rfl, rfl⟩
    · by_cases hr : 0 ≤ n ∧ n ≤ 5
      · rw [attemptUpdate_in_range s raw n hp hr.1 hr.2] at hm
        simp at hm
      · rw [attemptUpdate_out_of_range s raw n hp hr] at hm
        simp at hm
        subst hm
        rw [attemptUpdate_out_of_range s raw n hp hr]
        exact ⟨rfl, rfl⟩

/-- Witness for C6 on the unparseable input "abc". -/
theorem claim6_same_branch_witness :
    parseInt "abc" = none ∧
      (attemptUpdate initialState "abc").1.number = initialState.number ∧
      (attemptUpdate initialState "abc").1.isInvalidNumber =
        some (validationText none) ∧
      (attemptUpdate initialState "abc").2 =
        Outcome.rejected (validationText none) :=
  ⟨by decide, claim6_same_branch.1 initialState "abc" (by decide)⟩

/-- C7: `attemptUpdate` is a total function whose every result is one of
the two ordinary contract branches — acceptance, or a rejection surfaced
only through the isInvalidNumber cell; no exception or error return. -/
theorem claim7_total_no_error (s : ParentState) (raw : String) :
    (∃ n : Int, attemptUpdate s raw =
        ({ number := n, isInvalidNumber := none }, Outcome.accepted n)) ∨
    (∃ m : String, attemptUpdate s raw =
        ({ s with isInvalidNumber := some m }, Outcome.rejected m)) := by
  rcases hp : parseInt raw with _ | n
  · exact Or.inr ⟨validationText none, attemptUpdate_nan s raw hp⟩
  · by_cases hr : 0 ≤ n ∧ n ≤ 5
    · exact Or.inl ⟨n, attemptUpdate_in_range s raw n hp hr.1 hr.2⟩
    · exact Or.inr ⟨validationText (some n),
        attemptUpdate_out_of_range s raw n hp hr⟩

/-- C8: idempotence on in-range values: two successive calls with the
decimal string of n leave NumericValue = n and the message absent after
each call, and the second call does not change the state. -/
theorem claim8_idempotent (n : Int) (s : ParentState)
    (h0 : 0 ≤ n) (h5 : n ≤ 5) :
    (handleNumberChange s (decimalString n)).number = n ∧
    (handleNumberChange s (decimalString n)).isInvalidNumber = none ∧
    handleNumberChange (handleNumberChange s (decimalString n))
        (decimalString n) =
      handleNumberChange s (decimalString n) := by
  have h1 := attemptUpdate_in_range s (decimalString n) n
    (parseInt_decimalString n) h0 h5
  have h2 := attemptUpdate_in_range { number := n, isInvalidNumber := none }
    (decimalString n) n (parseInt_decimalString n) h0 h5
  rw [handleNumberChange, h1]
  refine ⟨rfl, rfl, ?_⟩
  show handleNumberChange { number := n, isInvalidNumber := none }
      (decimalString n) = ({ number := n, isInvalidNumber := none } : ParentState)
  rw [handleNumberChange, h2]

/-- Witness for C8 at n = 2 from the initial state. -/
theorem claim8_idempotent_witness :
    (0 : Int) ≤ 2 ∧ (2 : Int) ≤ 5 ∧
      ((handleNumberChange initialState (decimalString 2)).number = 2 ∧
        (handleNumberChange initialState (decimalString 2)).isInvalidNumber =
          none ∧
        handleNumberChange (handleNumberChange initialState (decimalString 2))
            (decimalString 2) =
          handleNumberChange initialState (decimalString 2)) :=
  ⟨by decide, by decide,
    claim8_idempotent 2 initialState (by decide) (by decide)⟩

/-- C9: from the initial state, the calls "3", "9", "2" produce in order
the states (3, absent), (3, "9 is not a valid number!"), (2, absent). -/
theorem claim9_scenario :
    handleNumberChange initialState "3" =
      { number := 3, isInvalidNumber := none } ∧
    handleNumberChange (handleNumberChange initialState "3") "9" =
      { number := 3, isInvalidNumber := some "9 is not a valid number!" } ∧
    handleNumberChange
        (handleNumberChange (handleNumberChange initialState "3") "9") "2" =
      { number := 2, isInvalidNumber := none } := by decide

/-- C10: every rejection message has the exact form
`<parsed value> is not a valid number!` built from the parsed value, not
the raw text: unparseable input gives `NaN is not a valid number!`, and
"7.9" gives `7 is not a valid number!`. -/
theorem claim10_message_form :
    (∀ (s : ParentState) (raw m : String),
        (attemptUpdate s raw).2 = Outcome.rejected m →
        m = jsNumberToString (parseInt raw) ++ " is not a valid number!") ∧
    (∀ (s : ParentState) (raw : String), parseInt raw = none →
        (attemptUpdate s raw).1.isInvalidNumber =
          some "NaN is not a valid number!") ∧
    (∀ s : ParentState, (attemptUpdate s "abc").1.isInvalidNumber =
      some "NaN is not a valid number!") ∧
    (∀ s : ParentState, (attemptUpdate s "7.9").1.isInvalidNumber =
      some "7 is not a valid number!") := by
  refine ⟨?_, ?_, ?_, ?_⟩
  · intro s raw m hm
    rcases hp : parseInt raw with _ | n
    · rw [attemptUpdate_nan s raw hp] at hm
      simp at hm
      subst hm
      rfl
    · by_cases hr : 0 ≤ n ∧ n ≤ 5
      · rw [attemptUpdate_in_range s raw n hp hr.1 hr.2] at hm
        simp at hm
      · rw [attemptUpdate_out_of_range s raw n hp hr] at hm
        simp at hm
        subst hm
        rfl
  · intro s raw hp
    rw [attemptUpdate_nan s raw hp]
    rfl
  · intro s
    rw [attemptUpdate_nan s "abc" (by decide)]
    rfl
  · intro s
    rw [attemptUpdate_out_of_range s "7.9" 7 (by decide) (by omega)]
    show some (validationText (some 7)) = some "7 is not a valid number!"
    decide

/-- Witness for C10 on the rejected input "7.9". -/
theorem claim10_message_form_witness :
    (attemptUpdate initialState "7.9").2 =
        Outcome.rejected "7 is not a valid number!" ∧
      "7 is not a valid number!" =
        jsNumberToString (parseInt "7.9") ++ " is not a valid number!" :=
  ⟨by decide,
    claim10_message_form.1 initialState "7.9" "7 is not a valid number!"
      (by decide)⟩

end ControlledForm
